import Mathlib

/-!
Shallow embedding of `screenpadctl` (src/main.rs), a CLI tool that reads and
writes a brightness control file, a backup file and a config record.

File contents are modelled as `Option String` (`none` = unreadable/absent);
Rust panics (`expect`) are modelled as `Except.error` carrying the expect
message; printed lines are collected in a list.  Machine integers (`i16`) are
modelled as `Int` with explicit two's-complement wrapping where overflow can
occur.  Decimal rendering (`i16::to_string`) and parsing (`str::parse::<i16>`)
are modelled by executable functions below.
-/

namespace Screenpadctl

/-- The character for a single decimal digit, as produced by Rust's integer
formatting. -/
def digitChar (d : Nat) : Char :=
  match d with
  | 0 => '0' | 1 => '1' | 2 => '2' | 3 => '3' | 4 => '4'
  | 5 => '5' | 6 => '6' | 7 => '7' | 8 => '8' | _ => '9'

/-- Fuel-indexed digit expansion of a natural number, most significant digit
first.  Fuel `n + 1` always suffices for input `n`. -/
def natReprGo (fuel : Nat) (n : Nat) : List Char :=
  match fuel with
  | 0 => []
  | fuel + 1 =>
    if n < 10 then [digitChar n]
    else natReprGo fuel (n / 10) ++ [digitChar (n % 10)]

/-- Decimal digit string of a natural number (no sign, no leading zeros),
as produced by Rust's `to_string`. -/
def natRepr (n : Nat) : List Char := natReprGo (n + 1) n

/-- Decimal rendering of an integer, as Rust's `i16::to_string` produces it:
optional leading minus sign followed by the digits of the absolute value. -/
def intRender (v : Int) : String :=
  if v < 0 then ⟨'-' :: natRepr v.natAbs⟩ else ⟨natRepr v.toNat⟩

/-- Accumulating decimal parser over a digit list; `none` on any non-digit
character.  Mirrors the digit loop of Rust's integer `FromStr`. -/
def parseNatAux (acc : Nat) (l : List Char) : Option Nat :=
  match l with
  | [] => some acc
  | c :: cs =>
    if c.isDigit then parseNatAux (acc * 10 + (c.toNat - 48)) cs else none

/-- Parse a nonempty all-digit character list as a natural number. -/
def parseNat (l : List Char) : Option Nat :=
  match l with
  | [] => none
  | l => parseNatAux 0 l

/-- Rust's `str::parse::<i16>`: optional `+`/`-` sign, at least one digit,
digits only, and the value must fit in `i16` (`[-32768, 32767]`). -/
def parseI16 (s : String) : Option Int :=
  match s.data with
  | [] => none
  | c :: rest =>
    if c = '-' then
      match parseNat rest with
      | some n => if (n : Int) ≤ 32768 then some (-(n : Int)) else none
      | none => none
    else if c = '+' then
      match parseNat rest with
      | some n => if (n : Int) ≤ 32767 then some (n : Int) else none
      | none => none
    else
      match parseNat (c :: rest) with
      | some n => if (n : Int) ≤ 32767 then some (n : Int) else none
      | none => none

/-- `if brightness_string.ends_with('\n') { brightness_string.pop(); }` -/
def stripNewline (s : String) : String :=
  if s.data.getLast? = some '\n' then ⟨s.data.dropLast⟩ else s

/-- Two's-complement wrap into the `i16` range, the release-mode semantics of
Rust `i16` addition overflow. -/
def wrapI16 (x : Int) : Int := (x + 32768) % 65536 - 32768

/-- `struct Config { positive_increment: i16, negative_increment: i16 }` -/
structure Config where
  positive_increment : Int
  negative_increment : Int
deriving DecidableEq

/-- `impl Default for Config`: `{ positive_increment: 15, negative_increment: -15 }` -/
def Config.defaultConfig : Config := ⟨15, -15⟩

/-- The external state an invocation touches: the brightness control file, the
backup file (each `none` when unreadable/absent) and the loaded config. -/
structure World where
  control : Option String
  backup : Option String
  config : Config
deriving DecidableEq

/-- One printed line: `print_error`, `print_success`, or a plain `println!`. -/
inductive OutMsg where
  | error (text : String)
  | success (text : String)
  | plain (text : String)
deriving DecidableEq

/-- `get_brightness`: read the control file, strip one trailing newline, parse
as `i16`; panics (modelled as `Except.error`) if unreadable or unparsable. -/
def get_brightness (w : World) : Except String Int :=
  match w.control with
  | none => .error "Cannot open control file"
  | some s =>
    match parseI16 (stripNewline s) with
    | none => .error "Cannot convert string to int"
    | some v => .ok v

/-- `overwrite_brightness`: write the value as decimal text to the control
file, full replace. -/
def overwrite_brightness (w : World) (value : Int) : World :=
  { w with control := some (intRender value) }

/-- `increment_brightness`: read current value, add the delta (i16 wrapping
arithmetic), and write only if the result lies in `[0, 255]`. -/
def increment_brightness (w : World) (value : Int) : Except String World := do
  let current_brightness ← get_brightness w
  let sum := wrapI16 (current_brightness + value)
  if sum ≤ 255 ∧ 0 ≤ sum then
    pure (overwrite_brightness w sum)
  else
    pure w

/-- `backup_brightness`: read current brightness and write it as decimal text
to the backup file (creating it if absent, overwriting any prior value). -/
def backup_brightness (w : World) : Except String World := do
  let current_brightness ← get_brightness w
  pure { w with backup := some (intRender current_brightness) }

/-- `restore_brightness`: read and parse the backup file; panics if missing or
unparsable. -/
def restore_brightness (w : World) : Except String Int :=
  match w.backup with
  | none => .error "Cannot open backup file"
  | some s =>
    match parseI16 (stripNewline s) with
    | none => .error "Cannot convert string to int"
    | some v => .ok v

/-- `enum ScreenState { On, Off, Dim }` -/
inductive ScreenState where
  | On
  | Off
  | Dim
deriving DecidableEq

/-- `screen_state`: derived purely from the current brightness,
`0 => Off, 1 => Dim, _ => On`. -/
def screen_state (w : World) : Except String ScreenState := do
  let current_brightness ← get_brightness w
  pure (if current_brightness = 0 then ScreenState.Off
        else if current_brightness = 1 then ScreenState.Dim
        else ScreenState.On)

/-- The usage text printed by the `help` command. -/
def helpText : String :=
  "Usage details:
        Print current brightness: `b`
        Config brightness increment: `bconfig [pos/neg] <value>`
        Brightness control: `bup`, `bdown`, `bset <value>`
        Power control: `on`, `off`, `dim`
        Special power control modes:
            `toggle`: toggle between on and off
            `cycle`: cycle between [on -> dim -> off] (loops)
"

/-- The body of `main`'s `match args[1].as_str()`: dispatch one command given
the pre-computed current screen state. -/
def runCmd (cmd : String) (args : List String) (current_state : ScreenState)
    (w : World) : Except String (World × List OutMsg) :=
  if cmd = "b" then do
    let b ← get_brightness w
    pure (w, [.plain ("Current Brightness is " ++ intRender b)])
  else if cmd = "bup" then do
    let w2 ← increment_brightness w w.config.positive_increment
    pure (w2, [.success "Brightness up"])
  else if cmd = "bdown" then do
    let w2 ← increment_brightness w w.config.negative_increment
    pure (w2, [.success "Brightness down"])
  else if cmd = "bconfig" then
    if args.length ≤ 2 then
      pure (w, [.error "Specify which increment value to change. Use [pos/neg] <value>"])
    else if args.length ≤ 3 then
      pure (w, [.error "Specify increment value"])
    else
      match parseI16 (args.getD 3 "") with
      | none => .error "Cannot convert string to int"
      | some value =>
        let operation := args.getD 2 ""
        if operation = "pos" then
          pure ({ w with config := { w.config with positive_increment := value } },
                [.success ("Set " ++ operation ++ " increment to " ++ intRender value)])
        else if operation = "neg" then
          pure ({ w with config := { w.config with negative_increment := value } },
                [.success ("Set " ++ operation ++ " increment to " ++ intRender value)])
        else
          pure (w, [.error "Enter valid increment value to change"])
  else if cmd = "bset" then
    if args.length ≤ 2 then
      pure (w, [.error "Specifiy int between [0->255] inclusive to set the brightness manually"])
    else
      match parseI16 (args.getD 2 "") with
      | none => pure (w, [.error "Enter a valid int between [0->255] inclusive"])
      | some value =>
        if value > 255 ∨ value < 0 then
          pure (w, [.error "Int out of range. Brightness is between [0->255] inclusive"])
        else
          pure (overwrite_brightness w value,
                [.success ("Set brightness to " ++ intRender value)])
  else if cmd = "on" then
    if current_state = ScreenState.On then
      pure (w, [.error "Screen is already on"])
    else do
      let r ← restore_brightness w
      pure (overwrite_brightness w r, [.success "Screen on"])
  else if cmd = "off" then
    if current_state = ScreenState.Off then
      pure (w, [.error "Screen is already off"])
    else do
      let w2 ← backup_brightness w
      pure (overwrite_brightness w2 0, [.success "Screen off"])
  else if cmd = "toggle" then
    if current_state = ScreenState.On then do
      let w2 ← backup_brightness w
      pure (overwrite_brightness w2 0, [.success "Toggle screen off"])
    else if current_state = ScreenState.Off then do
      let r ← restore_brightness w
      pure (overwrite_brightness w r, [.success "Toggle screen on"])
    else
      pure (w, [])
  else if cmd = "dim" then
    if current_state = ScreenState.Dim then
      pure (w, [])
    else do
      let w2 ← if current_state = ScreenState.On then backup_brightness w else pure w
      pure (overwrite_brightness w2 1, [.success "Dim Screen"])
  else if cmd = "cycle" then
    -- the source matches on the three `ScreenState` constructors; the same
    -- three-way case split written as equality tests
    if current_state = ScreenState.On then do
      let w2 ← backup_brightness w
      pure (overwrite_brightness w2 1, [.success "Cycle on -> dim"])
    else if current_state = ScreenState.Dim then
      pure (overwrite_brightness w 0, [.success "Cycle dim -> off"])
    else do
      let r ← restore_brightness w
      pure (overwrite_brightness w r, [.success "Cycle off -> on"])
  else if cmd = "help" then
    pure (w, [.plain helpText])
  else
    pure (w, [.error "Invalid Argument\nUse `help` command"])

/-- `fn main()`: argument-count check, then the screen state is computed
(reading and parsing the control file) before command dispatch. -/
def main (args : List String) (w : World) : Except String (World × List OutMsg) :=
  if args.length < 2 then
    .ok (w, [.error "Specify argument\nuse `help` for usage details"])
  else
    (screen_state w).bind fun current_state =>
      runCmd (args.getD 1 "") args current_state w

instance {ε α : Type} [DecidableEq ε] [DecidableEq α] : DecidableEq (Except ε α) := fun x y =>
  match x, y with
  | .ok a, .ok b => if h : a = b then isTrue (by rw [h]) else isFalse (by simp [h])
  | .error a, .error b => if h : a = b then isTrue (by rw [h]) else isFalse (by simp [h])
  | .ok _, .error _ => isFalse (by simp)
  | .error _, .ok _ => isFalse (by simp)

/-- Concrete worlds used to instantiate the claim theorems. -/
def cfg0 : Config := ⟨15, -15⟩
def wC1 : World := ⟨some "0", none, cfg0⟩
def wC2 : World := ⟨some "250", none, cfg0⟩
def wC2b : World := ⟨some "100", none, cfg0⟩
def wC3 : World := ⟨some "123", none, cfg0⟩
def wC4 : World := ⟨some "42", none, cfg0⟩
def wC7off : World := ⟨some "0", some "9", cfg0⟩
def wC7on : World := ⟨some "77", some "9", cfg0⟩
def wC8 : World := ⟨some "1", some "64", cfg0⟩
def wC9 : World := ⟨none, some "64", cfg0⟩
def wC10 : World := ⟨some "250", none, cfg0⟩
def wC6 : World := ⟨some "5", none, cfg0⟩
def wC6b : World := ⟨some "5", none, cfg0⟩
def wC5 : World := ⟨some "1", some "42", cfg0⟩
def wC5on : World := ⟨some "42", some "7", cfg0⟩
def wC5off : World := ⟨some "0", some "7", cfg0⟩

/-! ### Infrastructure: decimal rendering/parsing round trip -/

theorem natReprGo_fuel : ∀ fuel₁ fuel₂ n, n < fuel₁ → n < fuel₂ →
    natReprGo fuel₁ n = natReprGo fuel₂ n := by
  intro fuel₁
  induction fuel₁ with
  | zero => intro fuel₂ n h1 _; omega
  | succ f ih =>
    intro fuel₂ n h1 h2
    cases fuel₂ with
    | zero => omega
    | succ g =>
      simp only [natReprGo]
      by_cases hn : n < 10
      · simp [hn]
      · have hd : n / 10 < n := Nat.div_lt_self (by omega) (by norm_num)
        simp only [if_neg hn]
        rw [ih g (n / 10) (by omega) (by omega)]

theorem natReprGo_succ (fuel n : Nat) : natReprGo (fuel + 1) n =
    if n < 10 then [digitChar n]
    else natReprGo fuel (n / 10) ++ [digitChar (n % 10)] := rfl

theorem natRepr_eq (n : Nat) : natRepr n =
    if n < 10 then [digitChar n]
    else natRepr (n / 10) ++ [digitChar (n % 10)] := by
  by_cases hn : n < 10
  · rw [if_pos hn]
    show natReprGo (n + 1) n = _
    rw [natReprGo_succ, if_pos hn]
  · rw [if_neg hn]
    show natReprGo (n + 1) n = natRepr (n / 10) ++ [digitChar (n % 10)]
    have hd : n / 10 < n := Nat.div_lt_self (by omega) (by norm_num)
    rw [natReprGo_succ, if_neg hn,
      natReprGo_fuel n (n / 10 + 1) (n / 10) (by omega) (by omega)]
    rfl

theorem digitChar_isDigit (d : Nat) (h : d < 10) : (digitChar d).isDigit = true := by
  interval_cases d <;> decide

theorem digitChar_toNat (d : Nat) (h : d < 10) : (digitChar d).toNat - 48 = d := by
  interval_cases d <;> decide

theorem digitChar_ne_dash (d : Nat) : digitChar d ≠ '-' := by
  unfold digitChar; split <;> decide

theorem digitChar_ne_plus (d : Nat) : digitChar d ≠ '+' := by
  unfold digitChar; split <;> decide

theorem digitChar_ne_newline (d : Nat) : digitChar d ≠ '\n' := by
  unfold digitChar; split <;> decide

theorem natRepr_head (n : Nat) : ∃ d t, d < 10 ∧ natRepr n = digitChar d :: t := by
  induction n using Nat.strong_induction_on with
  | _ n ih =>
    rw [natRepr_eq]
    by_cases hn : n < 10
    · exact ⟨n, [], hn, by simp [hn]⟩
    · obtain ⟨d, t, hd, ht⟩ := ih (n / 10) (Nat.div_lt_self (by omega) (by norm_num))
      exact ⟨d, t ++ [digitChar (n % 10)], hd, by simp [hn, ht]⟩

theorem natRepr_getLast (n : Nat) :
    ∃ d, d < 10 ∧ (natRepr n).getLast? = some (digitChar d) := by
  rw [natRepr_eq]
  by_cases hn : n < 10
  · exact ⟨n, hn, by simp [hn]⟩
  · exact ⟨n % 10, Nat.mod_lt _ (by norm_num), by simp [hn]⟩

theorem parseNatAux_append (acc : Nat) (l₁ l₂ : List Char) :
    parseNatAux acc (l₁ ++ l₂) =
      match parseNatAux acc l₁ with
      | some a => parseNatAux a l₂
      | none => none := by
  induction l₁ generalizing acc with
  | nil => simp [parseNatAux]
  | cons c cs ih =>
    simp only [List.cons_append, parseNatAux]
    by_cases hc : c.isDigit
    · simp only [if_pos hc]; exact ih _
    · simp [hc]

theorem parseNatAux_natRepr (n : Nat) : ∀ acc,
    parseNatAux acc (natRepr n) = some (acc * 10 ^ (natRepr n).length + n) := by
  induction n using Nat.strong_induction_on with
  | _ n ih =>
    intro acc
    rw [natRepr_eq]
    by_cases hn : n < 10
    · simp only [if_pos hn, parseNatAux, digitChar_isDigit n hn, if_pos,
        digitChar_toNat n hn, List.length_singleton, pow_one]
    · have hd : n / 10 < n := Nat.div_lt_self (by omega) (by norm_num)
      have hm : n % 10 < 10 := Nat.mod_lt _ (by norm_num)
      simp only [if_neg hn]
      rw [parseNatAux_append, ih (n / 10) hd acc]
      simp only [parseNatAux, digitChar_isDigit _ hm, if_pos, digitChar_toNat _ hm,
        List.length_append, List.length_singleton]
      congr 1
      calc (acc * 10 ^ (natRepr (n / 10)).length + n / 10) * 10 + n % 10
          = acc * (10 ^ (natRepr (n / 10)).length * 10) + (n / 10 * 10 + n % 10) := by
            ring
        _ = acc * 10 ^ ((natRepr (n / 10)).length + 1) + n := by
            rw [Nat.div_add_mod', pow_succ]

theorem parseNat_natRepr (n : Nat) : parseNat (natRepr n) = some n := by
  obtain ⟨d, t, hd, ht⟩ := natRepr_head n
  have h0 : parseNat (natRepr n) = parseNatAux 0 (natRepr n) := by
    rw [ht]; rfl
  rw [h0, parseNatAux_natRepr]
  simp

theorem parseI16_range {s : String} {v : Int} (h : parseI16 s = some v) :
    -32768 ≤ v ∧ v ≤ 32767 := by
  unfold parseI16 at h
  split at h
  · exact Option.noConfusion h
  · split_ifs at h <;>
    · split at h
      · split at h
        · simp only [Option.some.injEq] at h
          omega
        · exact Option.noConfusion h
      · exact Option.noConfusion h

theorem parseI16_intRender (v : Int) (h1 : -32768 ≤ v) (h2 : v ≤ 32767) :
    parseI16 (intRender v) = some v := by
  unfold intRender
  by_cases hv : v < 0
  · simp only [if_pos hv]
    unfold parseI16
    simp only [parseNat_natRepr]
    have hle : (v.natAbs : Int) ≤ 32768 := by omega
    simp only [if_pos trivial, if_pos hle, Option.some.injEq]
    omega
  · simp only [if_neg hv]
    obtain ⟨d, t, hd, ht⟩ := natRepr_head v.toNat
    unfold parseI16
    simp only [ht]
    rw [if_neg (digitChar_ne_dash d), if_neg (digitChar_ne_plus d), ← ht,
      parseNat_natRepr]
    have : (v.toNat : Int) ≤ 32767 := by omega
    simp only [if_pos this, Option.some.injEq]
    omega

theorem intRender_data_getLast (v : Int) :
    ∃ d, d < 10 ∧ (intRender v).data.getLast? = some (digitChar d) := by
  unfold intRender
  by_cases hv : v < 0
  · simp only [if_pos hv]
    obtain ⟨d, hd, hl⟩ := natRepr_getLast v.natAbs
    obtain ⟨d', t, _, ht⟩ := natRepr_head v.natAbs
    refine ⟨d, hd, ?_⟩
    show ('-' :: natRepr v.natAbs).getLast? = some (digitChar d)
    rw [ht, List.getLast?_cons_cons, ← ht, hl]
  · simp only [if_neg hv]
    obtain ⟨d, hd, hl⟩ := natRepr_getLast v.toNat
    exact ⟨d, hd, hl⟩

theorem stripNewline_intRender (v : Int) : stripNewline (intRender v) = intRender v := by
  obtain ⟨d, hd, hl⟩ := intRender_data_getLast v
  unfold stripNewline
  rw [hl, if_neg (by simp [digitChar_ne_newline d])]

/-! ### Infrastructure: basic facts about the file operations -/

theorem get_brightness_range {w : World} {v : Int} (h : get_brightness w = .ok v) :
    -32768 ≤ v ∧ v ≤ 32767 := by
  unfold get_brightness at h
  split at h
  · exact Except.noConfusion h
  · split at h
    · exact Except.noConfusion h
    · next heq =>
      cases h
      exact parseI16_range heq

theorem get_brightness_control {w : World} {v : Int}
    (h1 : -32768 ≤ v) (h2 : v ≤ 32767) (hc : w.control = some (intRender v)) :
    get_brightness w = .ok v := by
  unfold get_brightness
  rw [hc]
  simp only [stripNewline_intRender, parseI16_intRender v h1 h2]

theorem get_brightness_overwrite (w : World) (v : Int)
    (h1 : -32768 ≤ v) (h2 : v ≤ 32767) :
    get_brightness (overwrite_brightness w v) = .ok v :=
  get_brightness_control h1 h2 rfl

theorem screen_state_of_get {w : World} {b : Int} (hb : get_brightness w = .ok b) :
    screen_state w = .ok (if b = 0 then ScreenState.Off
      else if b = 1 then ScreenState.Dim else ScreenState.On) := by
  unfold screen_state
  rw [show (do
      let current_brightness ← get_brightness w
      pure (if current_brightness = 0 then ScreenState.Off
        else if current_brightness = 1 then ScreenState.Dim
        else ScreenState.On) : Except String ScreenState) =
    (get_brightness w).bind fun current_brightness =>
      Except.ok (if current_brightness = 0 then ScreenState.Off
        else if current_brightness = 1 then ScreenState.Dim
        else ScreenState.On) from rfl, hb]
  rfl

theorem backup_brightness_of_get {w : World} {b : Int}
    (hb : get_brightness w = .ok b) :
    backup_brightness w = .ok { w with backup := some (intRender b) } := by
  unfold backup_brightness
  rw [show (do
      let current_brightness ← get_brightness w
      pure { w with backup := some (intRender current_brightness) }
        : Except String World) =
    (get_brightness w).bind fun current_brightness =>
      Except.ok { w with backup := some (intRender current_brightness) } from rfl, hb]
  rfl

theorem restore_brightness_backup {w : World} {b : Int}
    (h1 : -32768 ≤ b) (h2 : b ≤ 32767) (hb : w.backup = some (intRender b)) :
    restore_brightness w = .ok b := by
  unfold restore_brightness
  rw [hb]
  simp only [stripNewline_intRender, parseI16_intRender b h1 h2]

theorem increment_brightness_of_get {w : World} {b : Int} (d : Int)
    (hb : get_brightness w = .ok b) :
    increment_brightness w d =
      if wrapI16 (b + d) ≤ 255 ∧ 0 ≤ wrapI16 (b + d) then
        .ok (overwrite_brightness w (wrapI16 (b + d)))
      else .ok w := by
  unfold increment_brightness
  rw [show (do
      let current_brightness ← get_brightness w
      let sum := wrapI16 (current_brightness + d)
      if sum ≤ 255 ∧ 0 ≤ sum then
        pure (overwrite_brightness w sum)
      else
        pure w : Except String World) =
    (get_brightness w).bind fun current_brightness =>
      if wrapI16 (current_brightness + d) ≤ 255 ∧ 0 ≤ wrapI16 (current_brightness + d) then
        Except.ok (overwrite_brightness w (wrapI16 (current_brightness + d)))
      else Except.ok w from rfl, hb]
  rfl

theorem main_eq (args : List String) (w : World) (h : 2 ≤ args.length) :
    main args w = (screen_state w).bind fun current_state =>
      runCmd (args.getD 1 "") args current_state w := by
  unfold main
  rw [if_neg (by omega)]

theorem okBind {α β : Type} (a : α) (f : α → Except String β) :
    (Bind.bind (Except.ok a) f : Except String β) = f a := rfl

theorem errorBind {α β : Type} (e : String) (f : α → Except String β) :
    (Bind.bind (Except.error e) f : Except String β) = Except.error e := rfl

theorem pureDef {α : Type} (a : α) : (pure a : Except String α) = Except.ok a := rfl

theorem overwrite_backup (w : World) (v : Int) :
    (overwrite_brightness w v).backup = w.backup := rfl

theorem screen_state_error {w : World} {e : String}
    (he : get_brightness w = .error e) : screen_state w = .error e := by
  unfold screen_state
  rw [he, errorBind]

theorem increment_backup {w : World} {d : Int} {w2 : World}
    (h : increment_brightness w d = .ok w2) : w2.backup = w.backup := by
  rcases hg : get_brightness w with e | b
  · unfold increment_brightness at h
    rw [hg, errorBind] at h
    exact Except.noConfusion h
  · rw [increment_brightness_of_get d hg] at h
    split at h <;> (cases h; rfl)

/-! ### Claim theorems -/

/-- C1: For every brightness value v in [0,255] read from the control file,
`screen_state` yields Off if and only if v = 0, Dim if and only if v = 1, and
On otherwise. -/
theorem C1_screen_state_mapping (w : World) (v : Int)
    (h0 : 0 ≤ v) (h255 : v ≤ 255) (hb : get_brightness w = .ok v) :
    (screen_state w = .ok ScreenState.Off ↔ v = 0) ∧
    (screen_state w = .ok ScreenState.Dim ↔ v = 1) ∧
    (screen_state w = .ok ScreenState.On ↔ (v ≠ 0 ∧ v ≠ 1)) := by
  rw [screen_state_of_get hb]
  by_cases hv0 : v = 0
  · simp [hv0]
  · by_cases hv1 : v = 1
    · simp [hv1]
    · simp [hv0, hv1]


theorem C1_witness :
    (screen_state wC1 = .ok ScreenState.Off ↔ (0 : Int) = 0) ∧
    (screen_state wC1 = .ok ScreenState.Dim ↔ (0 : Int) = 1) ∧
    (screen_state wC1 = .ok ScreenState.On ↔ ((0 : Int) ≠ 0 ∧ (0 : Int) ≠ 1)) :=
  C1_screen_state_mapping wC1 0 (by decide) (by decide) (by decide)

/-- C2: For every current brightness in [0,255] and every signed 16-bit
increment d, `increment_brightness d` leaves the control-file brightness
unchanged whenever the mathematical sum current + d falls outside [0,255],
and otherwise writes exactly current + d to the control file. -/
theorem C2_increment_brightness_bounds (w : World) (c d : Int)
    (hc0 : 0 ≤ c) (hc255 : c ≤ 255) (hd1 : -32768 ≤ d) (hd2 : d ≤ 32767)
    (hb : get_brightness w = .ok c) :
    ((c + d < 0 ∨ 255 < c + d) → increment_brightness w d = .ok w) ∧
    (0 ≤ c + d → c + d ≤ 255 →
      increment_brightness w d = .ok (overwrite_brightness w (c + d)) ∧
      get_brightness (overwrite_brightness w (c + d)) = .ok (c + d)) := by
  constructor
  · intro hout
    rw [increment_brightness_of_get d hb, if_neg]
    unfold wrapI16
    omega
  · intro hin1 hin2
    have hw : wrapI16 (c + d) = c + d := by unfold wrapI16; omega
    refine ⟨?_, get_brightness_overwrite w (c + d) (by omega) (by omega)⟩
    rw [increment_brightness_of_get d hb, if_pos (by rw [hw]; omega), hw]


theorem C2_witness :
    increment_brightness wC2 15 = .ok wC2 ∧
    increment_brightness wC2b 15 = .ok (overwrite_brightness wC2b 115) :=
  ⟨(C2_increment_brightness_bounds wC2 250 15 (by decide) (by decide) (by decide)
      (by decide) (by decide)).1 (by decide),
   ((C2_increment_brightness_bounds wC2b 100 15 (by decide) (by decide) (by decide)
      (by decide) (by decide)).2 (by decide) (by decide)).1⟩

/-- C3: For every brightness value present in the control file at backup time,
`backup_brightness` followed by `restore_brightness` with no intervening write
to the backup file returns exactly that brightness value (round-trip law). -/
theorem C3_backup_restore_roundtrip (w : World) (v : Int)
    (hb : get_brightness w = .ok v) :
    ∃ w2, backup_brightness w = .ok w2 ∧ restore_brightness w2 = .ok v := by
  obtain ⟨h1, h2⟩ := get_brightness_range hb
  exact ⟨{ w with backup := some (intRender v) }, backup_brightness_of_get hb,
    restore_brightness_backup h1 h2 rfl⟩


theorem C3_witness :
    ∃ w2, backup_brightness wC3 = .ok w2 ∧ restore_brightness w2 = .ok 123 :=
  C3_backup_restore_roundtrip wC3 123 (by decide)

theorem main_cycle_on {args : List String} {w : World} {b : Int}
    (hb : get_brightness w = .ok b) (h2 : 2 ≤ args.length)
    (hc : args.getD 1 "" = "cycle") (h0 : b ≠ 0) (h1 : b ≠ 1) :
    main args w =
      .ok ({ w with backup := some (intRender b), control := some (intRender 1) },
           [OutMsg.success "Cycle on -> dim"]) := by
  rw [main_eq args w h2, screen_state_of_get hb, if_neg h0, if_neg h1, hc]
  show runCmd "cycle" args ScreenState.On w = _
  unfold runCmd
  simp only [reduceIte]
  rw [backup_brightness_of_get hb]
  rfl

theorem main_cycle_dim {args : List String} {w : World}
    (hb : get_brightness w = .ok 1) (h2 : 2 ≤ args.length)
    (hc : args.getD 1 "" = "cycle") :
    main args w =
      .ok ({ w with control := some (intRender 0) },
           [OutMsg.success "Cycle dim -> off"]) := by
  rw [main_eq args w h2, screen_state_of_get hb, if_neg (by norm_num), if_pos rfl, hc]
  show runCmd "cycle" args ScreenState.Dim w = _
  unfold runCmd
  simp only [reduceIte]
  rfl

theorem main_cycle_off {args : List String} {w : World} {v : Int}
    (hb : get_brightness w = .ok 0) (hrest : restore_brightness w = .ok v)
    (h2 : 2 ≤ args.length) (hc : args.getD 1 "" = "cycle") :
    main args w =
      .ok ({ w with control := some (intRender v) },
           [OutMsg.success "Cycle off -> on"]) := by
  rw [main_eq args w h2, screen_state_of_get hb, if_pos rfl, hc]
  show runCmd "cycle" args ScreenState.Off w = _
  unfold runCmd
  simp only [reduceIte]
  rw [hrest]
  rfl

/-- C4: For every starting brightness b with b not in {0,1} (state On), running
the `cycle` command three times with no external interference passes through
Dim (brightness 1) and Off (brightness 0) and returns the control file to
exactly b (full cycle closure), assuming no intervening writes invalidate the
backup. -/
theorem C4_cycle_closure (w : World) (b : Int) (a0 : String)
    (hb : get_brightness w = .ok b) (h0 : b ≠ 0) (h1 : b ≠ 1) :
    ∃ w1 w2 w3 : World,
      main [a0, "cycle"] w = .ok (w1, [OutMsg.success "Cycle on -> dim"]) ∧
      get_brightness w1 = .ok 1 ∧ screen_state w1 = .ok ScreenState.Dim ∧
      main [a0, "cycle"] w1 = .ok (w2, [OutMsg.success "Cycle dim -> off"]) ∧
      get_brightness w2 = .ok 0 ∧ screen_state w2 = .ok ScreenState.Off ∧
      main [a0, "cycle"] w2 = .ok (w3, [OutMsg.success "Cycle off -> on"]) ∧
      get_brightness w3 = .ok b := by
  obtain ⟨hr1, hr2⟩ := get_brightness_range hb
  refine ⟨{ w with backup := some (intRender b), control := some (intRender 1) },
    { w with backup := some (intRender b), control := some (intRender 0) },
    { w with backup := some (intRender b), control := some (intRender b) },
    main_cycle_on hb (by simp) rfl h0 h1, ?_, ?_, ?_, ?_, ?_, ?_, ?_⟩
  · exact get_brightness_control (by norm_num) (by norm_num) rfl
  · rw [screen_state_of_get (get_brightness_control (v := 1)
      (by norm_num) (by norm_num) rfl)]
    norm_num
  · exact main_cycle_dim (get_brightness_control (by norm_num) (by norm_num) rfl)
      (by simp) rfl
  · exact get_brightness_control (by norm_num) (by norm_num) rfl
  · rw [screen_state_of_get (get_brightness_control (v := 0)
      (by norm_num) (by norm_num) rfl)]
    norm_num
  · exact main_cycle_off (get_brightness_control (v := 0) (by norm_num) (by norm_num) rfl)
      (restore_brightness_backup hr1 hr2 rfl) (by simp) rfl
  · exact get_brightness_control hr1 hr2 rfl


theorem C4_witness :
    ∃ w1 w2 w3 : World,
      main ["screenpadctl", "cycle"] wC4 =
        .ok (w1, [OutMsg.success "Cycle on -> dim"]) ∧
      get_brightness w1 = .ok 1 ∧ screen_state w1 = .ok ScreenState.Dim ∧
      main ["screenpadctl", "cycle"] w1 =
        .ok (w2, [OutMsg.success "Cycle dim -> off"]) ∧
      get_brightness w2 = .ok 0 ∧ screen_state w2 = .ok ScreenState.Off ∧
      main ["screenpadctl", "cycle"] w2 =
        .ok (w3, [OutMsg.success "Cycle off -> on"]) ∧
      get_brightness w3 = .ok 42 :=
  C4_cycle_closure wC4 42 "screenpadctl" (by decide) (by decide) (by decide)

/-- C7: When the `off` command is invoked with the screen already Off
(brightness 0), or the `on` command is invoked with the screen already On
(brightness not in {0,1}), an error message is shown and no file write occurs;
the control file and the backup file are left unchanged. -/
theorem C7_redundant_on_off (w : World) (b : Int) (a0 : String)
    (hb : get_brightness w = .ok b) :
    (b = 0 → main [a0, "off"] w = .ok (w, [OutMsg.error "Screen is already off"])) ∧
    (b ≠ 0 → b ≠ 1 → main [a0, "on"] w = .ok (w, [OutMsg.error "Screen is already on"])) := by
  constructor
  · intro h0
    subst h0
    rw [main_eq _ _ (by simp), screen_state_of_get hb, if_pos rfl]
    show runCmd "off" [a0, "off"] ScreenState.Off w = _
    unfold runCmd
    simp only [reduceIte]
    rfl
  · intro h0 h1
    rw [main_eq _ _ (by simp), screen_state_of_get hb, if_neg h0, if_neg h1]
    show runCmd "on" [a0, "on"] ScreenState.On w = _
    unfold runCmd
    simp only [reduceIte]
    rfl


theorem C7_witness :
    main ["screenpadctl", "off"] wC7off =
      .ok (wC7off, [OutMsg.error "Screen is already off"]) ∧
    main ["screenpadctl", "on"] wC7on =
      .ok (wC7on, [OutMsg.error "Screen is already on"]) :=
  ⟨(C7_redundant_on_off wC7off 0 "screenpadctl" (by decide)).1 rfl,
   (C7_redundant_on_off wC7on 77 "screenpadctl" (by decide)).2 (by decide) (by decide)⟩

/-- C8: For every current brightness equal to 1 (state Dim), the `toggle`
command performs no write to the control file or the backup file and prints no
message (silent fall-through no-op). -/
theorem C8_toggle_dim_silent (w : World) (a0 : String)
    (hb : get_brightness w = .ok 1) :
    main [a0, "toggle"] w = .ok (w, []) := by
  rw [main_eq _ _ (by simp), screen_state_of_get hb, if_neg (by norm_num), if_pos rfl]
  show runCmd "toggle" [a0, "toggle"] ScreenState.Dim w = _
  unfold runCmd
  simp only [reduceIte]
  rfl


theorem C8_witness : main ["screenpadctl", "toggle"] wC8 = .ok (wC8, []) :=
  C8_toggle_dim_silent wC8 "screenpadctl" (by decide)

/-- C9: For every invocation with at least one command argument — including
commands that never use the brightness value — the program reads and parses the
control file before command dispatch, so an unreadable or unparsable control
file aborts the process regardless of which command was requested. -/
theorem C9_control_read_before_dispatch (args : List String) (w : World)
    (e : String) (hlen : 2 ≤ args.length) (he : get_brightness w = .error e) :
    main args w = .error e := by
  rw [main_eq args w hlen, screen_state_error he]
  rfl


theorem C9_witness :
    main ["screenpadctl", "help"] wC9 = .error "Cannot open control file" :=
  C9_control_read_before_dispatch ["screenpadctl", "help"] wC9
    "Cannot open control file" (by decide) (by decide)

theorem main_bup {w : World} {b : Int} (a0 : String)
    (hb : get_brightness w = .ok b) :
    main [a0, "bup"] w =
      (increment_brightness w w.config.positive_increment).bind fun w2 =>
        .ok (w2, [OutMsg.success "Brightness up"]) := by
  rw [main_eq _ _ (by simp), screen_state_of_get hb]
  show runCmd "bup" [a0, "bup"]
    (if b = 0 then ScreenState.Off else if b = 1 then ScreenState.Dim
     else ScreenState.On) w = _
  unfold runCmd
  simp only [reduceIte]
  rfl

theorem main_bdown {w : World} {b : Int} (a0 : String)
    (hb : get_brightness w = .ok b) :
    main [a0, "bdown"] w =
      (increment_brightness w w.config.negative_increment).bind fun w2 =>
        .ok (w2, [OutMsg.success "Brightness down"]) := by
  rw [main_eq _ _ (by simp), screen_state_of_get hb]
  show runCmd "bdown" [a0, "bdown"]
    (if b = 0 then ScreenState.Off else if b = 1 then ScreenState.Dim
     else ScreenState.On) w = _
  unfold runCmd
  simp only [reduceIte]
  rfl

/-- C10: For every configured increment value and every current brightness, the
`bup` and `bdown` commands print the green success message ("Brightness up" /
"Brightness down") unconditionally, including when `increment_brightness`
rejected the change and the control-file brightness is unchanged. -/
theorem C10_bup_bdown_message (w : World) (b : Int) (a0 : String)
    (hb : get_brightness w = .ok b) :
    (∃ w2, main [a0, "bup"] w = .ok (w2, [OutMsg.success "Brightness up"])) ∧
    (∃ w2, main [a0, "bdown"] w = .ok (w2, [OutMsg.success "Brightness down"])) ∧
    (increment_brightness w w.config.positive_increment = .ok w →
      main [a0, "bup"] w = .ok (w, [OutMsg.success "Brightness up"])) ∧
    (increment_brightness w w.config.negative_increment = .ok w →
      main [a0, "bdown"] w = .ok (w, [OutMsg.success "Brightness down"])) := by
  have hup := increment_brightness_of_get w.config.positive_increment hb
  have hdown := increment_brightness_of_get w.config.negative_increment hb
  refine ⟨?_, ?_, ?_, ?_⟩
  · have hex : ∃ w2, increment_brightness w w.config.positive_increment = .ok w2 := by
      rw [hup]; split
      · exact ⟨_, rfl⟩
      · exact ⟨_, rfl⟩
    obtain ⟨w2, hw2⟩ := hex
    exact ⟨w2, by rw [main_bup a0 hb, hw2]; rfl⟩
  · have hex : ∃ w2, increment_brightness w w.config.negative_increment = .ok w2 := by
      rw [hdown]; split
      · exact ⟨_, rfl⟩
      · exact ⟨_, rfl⟩
    obtain ⟨w2, hw2⟩ := hex
    exact ⟨w2, by rw [main_bdown a0 hb, hw2]; rfl⟩
  · intro hok
    rw [main_bup a0 hb, hok]
    rfl
  · intro hok
    rw [main_bdown a0 hb, hok]
    rfl


theorem C10_witness :
    main ["screenpadctl", "bup"] wC10 =
      .ok (wC10, [OutMsg.success "Brightness up"]) :=
  (C10_bup_bdown_message wC10 250 "screenpadctl" (by decide)).2.2.1 (by decide)


/-- C6 counterexample: with a readable control file, `bset zzz` (malformed
numeric argument) does not abort the process; it prints a formatted user-facing
error line and returns normally, contradicting the claim that every malformed
numeric sub-argument (bconfig or bset) aborts with a raw diagnostic. -/
theorem C6_counterexample :
    main ["screenpadctl", "bset", "zzz"] wC6 =
      .ok (wC6, [OutMsg.error "Enter a valid int between [0->255] inclusive"]) ∧
    ∀ e : String, main ["screenpadctl", "bset", "zzz"] wC6 ≠ Except.error e := by
  refine ⟨by decide, ?_⟩
  intro e h
  rw [show main ["screenpadctl", "bset", "zzz"] wC6 =
    .ok (wC6, [OutMsg.error "Enter a valid int between [0->255] inclusive"])
    from by decide] at h
  exact Except.noConfusion h

/-- C6 (amended): a malformed numeric sub-argument of `bconfig` aborts the
process with the raw diagnostic "Cannot convert string to int", while a
malformed numeric argument of `bset` prints a formatted user-facing error and
exits normally with no file write. -/
theorem C6_numeric_arg_policy (args : List String) (w : World) (b : Int)
    (hb : get_brightness w = .ok b) :
    (args.getD 1 "" = "bconfig" → 4 ≤ args.length →
      parseI16 (args.getD 3 "") = none →
      main args w = .error "Cannot convert string to int") ∧
    (args.getD 1 "" = "bset" → 3 ≤ args.length →
      parseI16 (args.getD 2 "") = none →
      main args w =
        .ok (w, [OutMsg.error "Enter a valid int between [0->255] inclusive"])) := by
  constructor
  · intro hcmd hlen hparse
    rw [main_eq _ _ (by omega), screen_state_of_get hb, hcmd]
    show runCmd "bconfig" args
      (if b = 0 then ScreenState.Off else if b = 1 then ScreenState.Dim
       else ScreenState.On) w = _
    unfold runCmd
    rw [if_neg (show ¬args.length ≤ 2 by omega),
      if_neg (show ¬args.length ≤ 3 by omega), hparse]
    rfl
  · intro hcmd hlen hparse
    rw [main_eq _ _ (by omega), screen_state_of_get hb, hcmd]
    show runCmd "bset" args
      (if b = 0 then ScreenState.Off else if b = 1 then ScreenState.Dim
       else ScreenState.On) w = _
    unfold runCmd
    nth_rewrite 2 [if_neg (show ¬args.length ≤ 2 by omega)]
    rw [hparse]
    rfl


theorem C6_witness :
    main ["screenpadctl", "bconfig", "pos", "zz"] wC6b =
      .error "Cannot convert string to int" ∧
    main ["screenpadctl", "bset", "zz"] wC6b =
      .ok (wC6b, [OutMsg.error "Enter a valid int between [0->255] inclusive"]) :=
  ⟨(C6_numeric_arg_policy ["screenpadctl", "bconfig", "pos", "zz"] wC6b 5
      (by decide)).1 rfl (by decide) (by decide),
   (C6_numeric_arg_policy ["screenpadctl", "bset", "zz"] wC6b 5
      (by decide)).2 rfl (by decide) (by decide)⟩

/-- Across the whole command dispatcher, only four command arms can write the
backup file: `off`/`toggle`/`dim`/`cycle` when the state is On, and `off` when
the state is Dim.  Every other successful execution leaves it unchanged. -/
theorem runCmd_backup_preserved (cmd : String) (args : List String)
    (st : ScreenState) (w : World) (b : Int) (hb : get_brightness w = .ok b)
    (h1 : st = ScreenState.On → cmd ∉ (["off", "toggle", "dim", "cycle"] : List String))
    (h2 : st = ScreenState.Dim → cmd ≠ "off") :
    ∀ w2 msgs, runCmd cmd args st w = .ok (w2, msgs) → w2.backup = w.backup := by
  intro w2 msgs h
  unfold runCmd at h
  by_cases hb1 : cmd = "b"
  · rw [if_pos hb1, hb, okBind] at h
    simp only [pureDef, Except.ok.injEq, Prod.mk.injEq] at h
    obtain ⟨rfl, -⟩ := h
    rfl
  rw [if_neg hb1] at h
  by_cases hb2 : cmd = "bup"
  · rw [if_pos hb2] at h
    rcases hi : increment_brightness w w.config.positive_increment with e | w3
    · rw [hi, errorBind] at h
      exact Except.noConfusion h
    · rw [hi, okBind] at h
      simp only [pureDef, Except.ok.injEq, Prod.mk.injEq] at h
      obtain ⟨rfl, -⟩ := h
      exact increment_backup hi
  rw [if_neg hb2] at h
  by_cases hb3 : cmd = "bdown"
  · rw [if_pos hb3] at h
    rcases hi : increment_brightness w w.config.negative_increment with e | w3
    · rw [hi, errorBind] at h
      exact Except.noConfusion h
    · rw [hi, okBind] at h
      simp only [pureDef, Except.ok.injEq, Prod.mk.injEq] at h
      obtain ⟨rfl, -⟩ := h
      exact increment_backup hi
  rw [if_neg hb3] at h
  by_cases hb4 : cmd = "bconfig"
  · rw [if_pos hb4] at h
    split_ifs at h
    · simp only [pureDef, Except.ok.injEq, Prod.mk.injEq] at h
      obtain ⟨rfl, -⟩ := h
      rfl
    · simp only [pureDef, Except.ok.injEq, Prod.mk.injEq] at h
      obtain ⟨rfl, -⟩ := h
      rfl
    · split at h
      · exact Except.noConfusion h
      · simp only [pureDef] at h
        split_ifs at h <;>
        · simp only [Except.ok.injEq, Prod.mk.injEq] at h
          obtain ⟨rfl, -⟩ := h
          rfl
  rw [if_neg hb4] at h
  by_cases hb5 : cmd = "bset"
  · rw [if_pos hb5] at h
    split_ifs at h
    · simp only [pureDef, Except.ok.injEq, Prod.mk.injEq] at h
      obtain ⟨rfl, -⟩ := h
      rfl
    · split at h
      · simp only [pureDef, Except.ok.injEq, Prod.mk.injEq] at h
        obtain ⟨rfl, -⟩ := h
        rfl
      · split_ifs at h <;>
        · simp only [pureDef, Except.ok.injEq, Prod.mk.injEq] at h
          obtain ⟨rfl, -⟩ := h
          rfl
  rw [if_neg hb5] at h
  by_cases hb6 : cmd = "on"
  · rw [if_pos hb6] at h
    split_ifs at h
    · simp only [pureDef, Except.ok.injEq, Prod.mk.injEq] at h
      obtain ⟨rfl, -⟩ := h
      rfl
    · rcases hr : restore_brightness w with e | r
      · rw [hr, errorBind] at h
        exact Except.noConfusion h
      · rw [hr, okBind] at h
        simp only [pureDef, Except.ok.injEq, Prod.mk.injEq] at h
        obtain ⟨rfl, -⟩ := h
        rfl
  rw [if_neg hb6] at h
  by_cases hb7 : cmd = "off"
  · rw [if_pos hb7] at h
    split_ifs at h with hst
    · simp only [pureDef, Except.ok.injEq, Prod.mk.injEq] at h
      obtain ⟨rfl, -⟩ := h
      rfl
    · exfalso
      cases st with
      | On => exact h1 rfl (by simp [hb7])
      | Off => exact hst rfl
      | Dim => exact h2 rfl hb7
  rw [if_neg hb7] at h
  by_cases hb8 : cmd = "toggle"
  · rw [if_pos hb8] at h
    split_ifs at h with hstOn hstOff
    · exact absurd (by simp [hb8]) (h1 hstOn)
    · rcases hr : restore_brightness w with e | r
      · rw [hr, errorBind] at h
        exact Except.noConfusion h
      · rw [hr, okBind] at h
        simp only [pureDef, Except.ok.injEq, Prod.mk.injEq] at h
        obtain ⟨rfl, -⟩ := h
        rfl
    · simp only [pureDef, Except.ok.injEq, Prod.mk.injEq] at h
      obtain ⟨rfl, -⟩ := h
      rfl
  rw [if_neg hb8] at h
  by_cases hb9 : cmd = "dim"
  · rw [if_pos hb9] at h
    split_ifs at h with hstDim hstOn
    · simp only [pureDef, Except.ok.injEq, Prod.mk.injEq] at h
      obtain ⟨rfl, -⟩ := h
      rfl
    · exact absurd (by simp [hb9]) (h1 hstOn)
    · simp only [pureDef, okBind, Except.ok.injEq, Prod.mk.injEq] at h
      obtain ⟨rfl, -⟩ := h
      rfl
  rw [if_neg hb9] at h
  by_cases hb10 : cmd = "cycle"
  · rw [if_pos hb10] at h
    split_ifs at h with hstOn hstDim
    · exact absurd (by simp [hb10]) (h1 hstOn)
    · simp only [pureDef, Except.ok.injEq, Prod.mk.injEq] at h
      obtain ⟨rfl, -⟩ := h
      rfl
    · rcases hr : restore_brightness w with e | r
      · rw [hr, errorBind] at h
        exact Except.noConfusion h
      · rw [hr, okBind] at h
        simp only [pureDef, Except.ok.injEq, Prod.mk.injEq] at h
        obtain ⟨rfl, -⟩ := h
        rfl
  rw [if_neg hb10] at h
  by_cases hb11 : cmd = "help"
  · rw [if_pos hb11] at h
    simp only [pureDef, Except.ok.injEq, Prod.mk.injEq] at h
    obtain ⟨rfl, -⟩ := h
    rfl
  rw [if_neg hb11] at h
  simp only [pureDef, Except.ok.injEq, Prod.mk.injEq] at h
  obtain ⟨rfl, -⟩ := h
  rfl

theorem okBindE {α β : Type} (a : α) (f : α → Except String β) :
    (Except.ok a : Except String α).bind f = f a := rfl

theorem main_off_from_on {args : List String} {w : World} {b : Int}
    (hb : get_brightness w = .ok b) (h2 : 2 ≤ args.length)
    (hc : args.getD 1 "" = "off") (h0 : b ≠ 0) (h1 : b ≠ 1) :
    main args w =
      .ok ({ w with backup := some (intRender b), control := some (intRender 0) },
           [OutMsg.success "Screen off"]) := by
  rw [main_eq args w h2, screen_state_of_get hb, if_neg h0, if_neg h1, hc]
  show runCmd "off" args ScreenState.On w = _
  unfold runCmd
  rw [backup_brightness_of_get hb]
  rfl

theorem main_toggle_from_on {args : List String} {w : World} {b : Int}
    (hb : get_brightness w = .ok b) (h2 : 2 ≤ args.length)
    (hc : args.getD 1 "" = "toggle") (h0 : b ≠ 0) (h1 : b ≠ 1) :
    main args w =
      .ok ({ w with backup := some (intRender b), control := some (intRender 0) },
           [OutMsg.success "Toggle screen off"]) := by
  rw [main_eq args w h2, screen_state_of_get hb, if_neg h0, if_neg h1, hc]
  show runCmd "toggle" args ScreenState.On w = _
  unfold runCmd
  rw [backup_brightness_of_get hb]
  rfl

theorem main_dim_from_on {args : List String} {w : World} {b : Int}
    (hb : get_brightness w = .ok b) (h2 : 2 ≤ args.length)
    (hc : args.getD 1 "" = "dim") (h0 : b ≠ 0) (h1 : b ≠ 1) :
    main args w =
      .ok ({ w with backup := some (intRender b), control := some (intRender 1) },
           [OutMsg.success "Dim Screen"]) := by
  rw [main_eq args w h2, screen_state_of_get hb, if_neg h0, if_neg h1, hc]
  show runCmd "dim" args ScreenState.On w = _
  unfold runCmd
  rw [backup_brightness_of_get hb]
  rfl

theorem main_off_from_dim {args : List String} {w : World}
    (hb : get_brightness w = .ok 1) (h2 : 2 ≤ args.length)
    (hc : args.getD 1 "" = "off") :
    main args w =
      .ok ({ w with backup := some (intRender 1), control := some (intRender 0) },
           [OutMsg.success "Screen off"]) := by
  rw [main_eq args w h2, screen_state_of_get hb, if_neg (by norm_num), if_pos rfl, hc]
  show runCmd "off" args ScreenState.Dim w = _
  unfold runCmd
  rw [backup_brightness_of_get hb]
  rfl


/-- C5 counterexample: two concrete executions refute the claim as stated.
First, with the screen in state Dim (brightness 1) and a backup of "42", the
`off` command overwrites the backup file (with 1), although its current state
is Dim, not On.  Second, with the screen On at brightness 55, `bset 0` moves
the screen to state Off without writing the backup file, although its current
state is On and its target state is Off. -/
theorem C5_counterexample :
    (screen_state wC5 = .ok ScreenState.Dim ∧
      main ["screenpadctl", "off"] wC5 =
        .ok (⟨some "0", some "1", cfg0⟩, [OutMsg.success "Screen off"]) ∧
      (⟨some "0", some "1", cfg0⟩ : World).backup ≠ wC5.backup) ∧
    (screen_state (⟨some "55", some "42", cfg0⟩ : World) = .ok ScreenState.On ∧
      main ["screenpadctl", "bset", "0"] ⟨some "55", some "42", cfg0⟩ =
        .ok (⟨some "0", some "42", cfg0⟩, [OutMsg.success "Set brightness to 0"]) ∧
      screen_state (⟨some "0", some "42", cfg0⟩ : World) = .ok ScreenState.Off ∧
      (⟨some "0", some "42", cfg0⟩ : World).backup = (⟨some "55", some "42", cfg0⟩ : World).backup) := by
  exact ⟨⟨by decide, by decide, by decide⟩, ⟨by decide, by decide, by decide, by decide⟩⟩

/-- C5 (amended): the backup file is written exactly by the `off`, `toggle`,
`dim` and `cycle` commands when the current state is On (storing the current
brightness), and by `off` when the current state is Dim (storing the dim
brightness 1); no other command execution writes the backup file — in
particular `bset`/`bup`/`bdown` can move the screen away from On without
writing the backup, and no command whose current state is Off writes it. -/
theorem C5_backup_write_policy (w : World) (b : Int) (args : List String)
    (hb : get_brightness w = .ok b) :
    (b ≠ 0 → b ≠ 1 → ∀ a0 : String,
      ∀ cmd ∈ (["off", "toggle", "dim", "cycle"] : List String),
      ∃ w2 msgs, main [a0, cmd] w = .ok (w2, msgs) ∧
        w2.backup = some (intRender b)) ∧
    (b ≠ 0 → b ≠ 1 →
      args.getD 1 "" ∉ (["off", "toggle", "dim", "cycle"] : List String) →
      ∀ w2 msgs, main args w = .ok (w2, msgs) → w2.backup = w.backup) ∧
    (b = 0 → ∀ w2 msgs, main args w = .ok (w2, msgs) → w2.backup = w.backup) ∧
    (b = 1 → args.getD 1 "" ≠ "off" →
      ∀ w2 msgs, main args w = .ok (w2, msgs) → w2.backup = w.backup) ∧
    (b = 1 → args.getD 1 "" = "off" →
      ∃ w2 msgs, main args w = .ok (w2, msgs) ∧
        w2.backup = some (intRender 1)) := by
  refine ⟨?_, ?_, ?_, ?_, ?_⟩
  · intro h0 h1 a0 cmd hcmd
    simp only [List.mem_cons, List.not_mem_nil, or_false] at hcmd
    rcases hcmd with rfl | rfl | rfl | rfl
    · exact ⟨_, _, main_off_from_on hb (by simp) rfl h0 h1, rfl⟩
    · exact ⟨_, _, main_toggle_from_on hb (by simp) rfl h0 h1, rfl⟩
    · exact ⟨_, _, main_dim_from_on hb (by simp) rfl h0 h1, rfl⟩
    · exact ⟨_, _, main_cycle_on hb (by simp) rfl h0 h1, rfl⟩
  · intro h0 h1 hnotin w2 msgs hmain
    by_cases hlen : args.length < 2
    · unfold main at hmain
      rw [if_pos hlen] at hmain
      simp only [Except.ok.injEq, Prod.mk.injEq] at hmain
      obtain ⟨rfl, -⟩ := hmain
      rfl
    · rw [main_eq args w (by omega), screen_state_of_get hb, if_neg h0,
        if_neg h1, okBindE] at hmain
      exact runCmd_backup_preserved (args.getD 1 "") args ScreenState.On w b hb
        (fun _ => hnotin) (fun hd => ScreenState.noConfusion hd) w2 msgs hmain
  · intro h0 w2 msgs hmain
    subst h0
    by_cases hlen : args.length < 2
    · unfold main at hmain
      rw [if_pos hlen] at hmain
      simp only [Except.ok.injEq, Prod.mk.injEq] at hmain
      obtain ⟨rfl, -⟩ := hmain
      rfl
    · rw [main_eq args w (by omega), screen_state_of_get hb, if_pos rfl,
        okBindE] at hmain
      exact runCmd_backup_preserved (args.getD 1 "") args ScreenState.Off w 0 hb
        (fun ho => ScreenState.noConfusion ho)
        (fun hd => ScreenState.noConfusion hd) w2 msgs hmain
  · intro h1 hoff w2 msgs hmain
    subst h1
    by_cases hlen : args.length < 2
    · unfold main at hmain
      rw [if_pos hlen] at hmain
      simp only [Except.ok.injEq, Prod.mk.injEq] at hmain
      obtain ⟨rfl, -⟩ := hmain
      rfl
    · rw [main_eq args w (by omega), screen_state_of_get hb,
        if_neg (by norm_num), if_pos rfl, okBindE] at hmain
      exact runCmd_backup_preserved (args.getD 1 "") args ScreenState.Dim w 1 hb
        (fun ho => ScreenState.noConfusion ho) (fun _ => hoff) w2 msgs hmain
  · intro h1 hoff
    subst h1
    have hlen : 2 ≤ args.length := by
      by_contra hlen
      rw [List.getD_eq_default args "" (by omega)] at hoff
      exact absurd hoff (by decide)
    exact ⟨_, _, main_off_from_dim hb hlen hoff, rfl⟩


theorem C5_witness :
    (∃ w2 msgs, main ["screenpadctl", "off"] wC5on = .ok (w2, msgs) ∧
      w2.backup = some (intRender 42)) ∧
    (∀ w2 msgs, main ["screenpadctl", "b"] wC5off = .ok (w2, msgs) →
      w2.backup = wC5off.backup) :=
  ⟨(C5_backup_write_policy wC5on 42 ["screenpadctl", "b"] (by decide)).1
      (by decide) (by decide) "screenpadctl" "off" (by simp),
   (C5_backup_write_policy wC5off 0 ["screenpadctl", "b"] (by decide)).2.2.1 rfl⟩

end Screenpadctl
